import Mathlib

/-!
Shallow embedding of the oracle-vector-db client core
(`src/collection.ts`, `src/embeddings.ts`) and of the store/provider
semantics it targets, together with theorems settling the frozen claims.

Modelling conventions:
* JavaScript numbers appearing in metadata and filters are modelled as `Int`
  (the claims only need integer literals); vectors are `List Int` (only their
  lengths and identity matter to the claims).
* The column name `namespace` is a Lean keyword, so rows and requests use the
  field name `ns`.
* Oracle timestamps (`created_at`/`updated_at`) are not modelled: no claim
  mentions them.
-/

/-- A JSON-like scalar metadata value, as stored in a document's `metadata`
JSON column and as written in a filter literal. -/
inductive JsonValue
  | str (s : String)
  | num (n : Int)
  | boolean (b : Bool)
deriving DecidableEq, Repr

/-- The right-hand side of a filter operator: a scalar for the comparison
operators, an array for `$in`. -/
inductive FilterRhs
  | scalar (v : JsonValue)
  | array (vs : List JsonValue)
deriving DecidableEq, Repr

/-- One entry of a MongoDB-style filter object: either a bare literal
(implicit `$eq`) or an operator sub-object (a list of operator/value pairs,
operators kept as raw strings exactly as the source switches on them). -/
inductive FilterCond
  | lit (v : JsonValue)
  | ops (l : List (String × FilterRhs))
deriving DecidableEq, Repr

/-- A filter expression: metadata key to condition, implicitly conjoined. -/
def FilterExpr : Type := List (String × FilterCond)

/-- A single quote character, as interpolated by `buildFilterConditions`. -/
def squo : String := String.singleton (Char.ofNat 39)

/-- JavaScript template-literal stringification of a scalar: the body of
`${val}` for a string, number, or boolean. -/
def jsToString : JsonValue → String
  | .str s => s
  | .num n => toString n
  | .boolean b => if b then "true" else "false"

/-- The SQL fragment `JSON_VALUE(metadata, '$.key')` emitted for a key. -/
def jsonValueExpr (key : String) : String :=
  "JSON_VALUE(metadata, " ++ squo ++ "$." ++ key ++ squo ++ ")"

/-- The condition string pushed for one operator/value pair in the `switch`
of `collection.ts` `buildFilterConditions`. Unsupported operators fall
through the `switch` and push nothing (`none`). -/
def filterOpCondition (key : String) (op : String) (rhs : FilterRhs) : Option String :=
  match op, rhs with
  | "$eq", .scalar v => some (jsonValueExpr key ++ " = " ++ squo ++ jsToString v ++ squo)
  | "$ne", .scalar v => some (jsonValueExpr key ++ " != " ++ squo ++ jsToString v ++ squo)
  | "$gt", .scalar v => some (jsonValueExpr key ++ " > " ++ squo ++ jsToString v ++ squo)
  | "$gte", .scalar v => some (jsonValueExpr key ++ " >= " ++ squo ++ jsToString v ++ squo)
  | "$lt", .scalar v => some (jsonValueExpr key ++ " < " ++ squo ++ jsToString v ++ squo)
  | "$lte", .scalar v => some (jsonValueExpr key ++ " <= " ++ squo ++ jsToString v ++ squo)
  | "$in", .array vs =>
      some (jsonValueExpr key ++ " IN (" ++
        String.intercalate "," (vs.map (fun v => squo ++ jsToString v ++ squo)) ++ ")")
  | _, _ => none

/-- The conditions pushed for one filter entry. A bare literal is an
implicit equality; an operator object contributes one condition per
supported operator. -/
def filterKeyConditions : String × FilterCond → List String
  | (key, .lit v) => [jsonValueExpr key ++ " = " ++ squo ++ jsToString v ++ squo]
  | (key, .ops l) => l.filterMap (fun p => filterOpCondition key p.1 p.2)

/-- `Collection.buildFilterConditions`: interpolates each filter literal
directly into a predicate string (single-quoted) and joins the fragments
with `AND`. It binds no parameters and cannot fail. -/
def buildFilterConditions (filter : FilterExpr) : String :=
  String.intercalate " AND " (filter.flatMap filterKeyConditions)

/-- The names of the bind parameters `Collection.search` passes to the
store: `queryVector`, `namespace` and (appended after the filter clause)
`topK`. The filter path adds no binds. -/
def searchBindNames : List String := ["queryVector", "namespace", "topK"]

/-! ### Semantics of the emitted predicate, and a typed reference evaluator -/

/-- Lexicographic (codepoint) order on character lists: the comparison Oracle
applies to VARCHAR2 values with binary sorting. -/
def lexLt : List Char → List Char → Bool
  | [], [] => false
  | [], _ :: _ => true
  | _ :: _, [] => false
  | c :: cs, d :: ds => if c = d then lexLt cs ds else decide (c < d)

/-- String version of `lexLt`. -/
def strLt (a b : String) : Bool := lexLt a.data b.data

/-- What `JSON_VALUE(metadata, '$.key')` returns: the scalar at `key`
rendered as a VARCHAR2 (JSON text for numbers and booleans, the raw content
for strings), or NULL when the key is absent. -/
def jsonValueOf (md : List (String × JsonValue)) (key : String) : Option String :=
  (md.lookup key).map jsToString

/-- Modelled from the spec: Oracle's evaluation of one emitted comparison
fragment. `JSON_VALUE` yields a VARCHAR2 (or NULL, which makes every
comparison unknown, hence the row unselected), the quoted literal is a
VARCHAR2, and `<`/`>`/`<=`/`>=` compare lexicographically. Unsupported
operators emitted no fragment, so they constrain nothing (`true`). -/
def evalCompiledOp (md : List (String × JsonValue)) (key op : String) (rhs : FilterRhs) : Bool :=
  match jsonValueOf md key with
  | none =>
      match filterOpCondition key op rhs with
      | none => true
      | some _ => false
  | some s =>
      match op, rhs with
      | "$eq", .scalar v => s = jsToString v
      | "$ne", .scalar v => s ≠ jsToString v
      | "$gt", .scalar v => strLt (jsToString v) s
      | "$gte", .scalar v => !strLt s (jsToString v)
      | "$lt", .scalar v => strLt s (jsToString v)
      | "$lte", .scalar v => !strLt (jsToString v) s
      | "$in", .array vs => vs.any (fun v => s = jsToString v)
      | _, _ => true

/-- Modelled from the spec: Oracle's evaluation of the whole predicate
emitted by `buildFilterConditions` for a row with metadata `md` (the
conjunction of the per-operator fragments). -/
def evalCompiledFilter (filter : FilterExpr) (md : List (String × JsonValue)) : Bool :=
  filter.all (fun e =>
    match e with
    | (key, .lit v) => evalCompiledOp md key "$eq" (.scalar v)
    | (key, .ops l) => l.all (fun p => evalCompiledOp md key p.1 p.2))

/-- Typed equality of metadata values (the reference semantics: values of
different runtime types are unequal). -/
def jsonEq (a b : JsonValue) : Bool := a = b

/-- Typed strict order on metadata values (the reference semantics):
numbers compare numerically, strings lexicographically, booleans with
`false < true`; values of different types are unordered. -/
def jsonLt : JsonValue → JsonValue → Bool
  | .num a, .num b => decide (a < b)
  | .str a, .str b => strLt a b
  | .boolean a, .boolean b => !a && b
  | _, _ => false

/-- Modelled from the spec: the reference in-memory evaluation of one
operator using typed comparisons. A missing key satisfies no operator. -/
def evalRefOp (md : List (String × JsonValue)) (key op : String) (rhs : FilterRhs) : Bool :=
  match md.lookup key with
  | none => false
  | some mv =>
      match op, rhs with
      | "$eq", .scalar v => jsonEq mv v
      | "$ne", .scalar v => !jsonEq mv v
      | "$gt", .scalar v => jsonLt v mv
      | "$gte", .scalar v => !jsonLt mv v
      | "$lt", .scalar v => jsonLt mv v
      | "$lte", .scalar v => !jsonLt v mv
      | "$in", .array vs => vs.any (fun v => jsonEq mv v)
      | _, _ => false

/-- Modelled from the spec: the reference in-memory evaluator of a filter
expression, with all keys and all operators under a key conjoined. -/
def evalRefFilter (filter : FilterExpr) (md : List (String × JsonValue)) : Bool :=
  filter.all (fun e =>
    match e with
    | (key, .lit v) => evalRefOp md key "$eq" (.scalar v)
    | (key, .ops l) => l.all (fun p => evalRefOp md key p.1 p.2))

/-! ### Embedding pipeline (`src/embeddings.ts`, `EmbeddingService`)

The OpenAI provider is abstracted as a pure function
`f : model → text → vector` (the spec's order-preserving, one-to-one
provider contract).  The `lru-cache` dependency is modelled as a list of
entries, most recently inserted first, with the configured maximum entry
count and TTL; recency reordering on reads is omitted because it only
affects which entry is evicted at capacity, which no claim touches.  The
`p-queue` gate (concurrency 5, 20 dispatches/s) only schedules the batch
calls, so it is represented by counting dispatched provider calls in
`EmbedState.providerCalls`. -/

/-- TTL of the embedding cache in milliseconds: `1000 * 60 * 60`. -/
def cacheTtl : Nat := 3600000

/-- Maximum entry count of the embedding cache: `max: 1000`. -/
def cacheMax : Nat := 1000

/-- One entry of the embedding cache. -/
structure CacheEntry where
  key : String
  value : List Int
  insertedAt : Nat
deriving DecidableEq, Repr

/-- The mutable state of an `EmbeddingService`: the cache contents and the
running count of provider batch calls dispatched through the queue. -/
structure EmbedState where
  cache : List CacheEntry
  providerCalls : Nat
deriving DecidableEq, Repr

/-- The state of a freshly constructed `EmbeddingService`. -/
def initialEmbedState : EmbedState := ⟨[], 0⟩

/-- The cache key `` `${model}:${text}` ``. -/
def cacheKey (model text : String) : String := model ++ ":" ++ text

/-- `cache.get(key)` at time `now`: the stored vector unless absent or
older than the TTL. -/
def cacheGet (cache : List CacheEntry) (key : String) (now : Nat) : Option (List Int) :=
  match cache.find? (fun e => e.key == key) with
  | none => none
  | some e => if now ≤ e.insertedAt + cacheTtl then some e.value else none

/-- `cache.set(key, value)` at time `now`: replaces any entry for `key` and
evicts beyond the maximum entry count. -/
def cacheSet (cache : List CacheEntry) (key : String) (value : List Int) (now : Nat) :
    List CacheEntry :=
  (⟨key, value, now⟩ :: cache.filter (fun e => e.key != key)).take cacheMax

/-- Helper for `createBatches`, structurally recursive on a fuel argument
(`fuel ≥ l.length` always holds at call sites, so the fuel never runs out
for a positive batch size). -/
def createBatchesAux (n : Nat) : Nat → List α → List (List α)
  | _, [] => []
  | 0, l => [l]
  | fuel + 1, x :: xs => (x :: xs.take (n - 1)) :: createBatchesAux n fuel (xs.drop (n - 1))

/-- `EmbeddingService.createBatches`: slices a list into chunks of at most
`n` elements (`items.slice(i, i + batchSize)`), preserving order. -/
def createBatches (n : Nat) (l : List α) : List (List α) :=
  createBatchesAux n l.length l

/-- The misses of `embed`'s first loop: the `toEmbed` list of
`(index, text)` pairs whose cache lookup failed. -/
def missList (cache : List CacheEntry) (model : String) (texts : List String) (now : Nat) :
    List (Nat × String) :=
  texts.enum.filter (fun p => (cacheGet cache (cacheKey model p.2) now).isNone)

/-- The `results` array right after the first loop: cache hits in their
slots, misses still empty. -/
def initSlots (cache : List CacheEntry) (model : String) (texts : List String) (now : Nat) :
    List (Option (List Int)) :=
  texts.map (fun t => cacheGet cache (cacheKey model t) now)

/-- The provider responses for the misses, tagged with their original
indices: what the dispatched batches produce, in canonical batch order. -/
def missResults (f : String → String → List Int) (cache : List CacheEntry) (model : String)
    (texts : List String) (now : Nat) : List (Nat × List Int) :=
  (missList cache model texts now).map (fun p => (p.1, f model p.2))

/-- The write-back loop `results[batch.index] = batch.embedding`: each
`(index, vector)` pair is written to its original index. -/
def assemble (init : List (Option (List Int))) (writes : List (Nat × List Int)) :
    List (Option (List Int)) :=
  writes.foldl (fun acc w => acc.set w.1 (some w.2)) init

/-- The value `embed` returns once the writes `writes` (in whatever order
the batches delivered them) have been assembled over the hit-filled slots. -/
def embedOut (cache : List CacheEntry) (model : String) (texts : List String) (now : Nat)
    (writes : List (Nat × List Int)) : List (List Int) :=
  (assemble (initSlots cache model texts now) writes).map (fun o => o.getD [])

/-- `EmbeddingService.embed`: cache lookup per text, misses batched by 100,
one provider call per batch, write-back by original index, and insertion of
the fresh vectors into the cache. -/
def embed (f : String → String → List Int) (model : String) (texts : List String)
    (s : EmbedState) (now : Nat) : List (List Int) × EmbedState :=
  let toEmbed := missList s.cache model texts now
  let batches := createBatches 100 toEmbed
  let writes := (batches.map (fun b => b.map (fun p => (p.1, f model p.2)))).flatten
  let newCache := writes.foldl
    (fun c w => cacheSet c (cacheKey model (texts.getD w.1 "")) w.2 now) s.cache
  (embedOut s.cache model texts now writes, ⟨newCache, s.providerCalls + batches.length⟩)

/-- `EmbeddingService.embedSingle`: cache lookup, else one provider call
whose result is cached. -/
def embedSingle (f : String → String → List Int) (model text : String)
    (s : EmbedState) (now : Nat) : List Int × EmbedState :=
  match cacheGet s.cache (cacheKey model text) now with
  | some v => (v, s)
  | none =>
      let v := f model text
      (v, ⟨cacheSet s.cache (cacheKey model text) v now, s.providerCalls + 1⟩)

/-! ### Collection operations (`src/collection.ts`)

The Oracle table backing a collection is modelled as a list of rows; the
store's `MERGE`, `WHERE`, `ORDER BY` and `FETCH FIRST` behaviour is the
standard SQL semantics of the statements the source builds.
`VECTOR_DISTANCE` under the configured metric is abstracted as a function
`dist : vector → vector → Int`; timestamps are omitted. -/

/-- The error kinds thrown by the collection layer (`src/errors.ts`). -/
inductive OpError
  | validation (msg : String)
  | searchErr (msg : String)
  | collectionErr (msg : String)
  | embeddingErr (msg : String)
deriving DecidableEq, Repr

/-- A stored row of the collection table (`id` is the table's PRIMARY KEY;
`ns` models the `namespace` column). -/
structure Row where
  id : String
  embedding : List Int
  text : Option String
  metadata : List (String × JsonValue)
  ns : String
deriving DecidableEq, Repr

/-- The collection configuration consumed by upsert/search. `metric` is
absorbed into the abstract distance function; `svcConfigured` flags below
stand for `embeddingService !== null && config.embeddingModel` being set. -/
structure CollectionConfig where
  dimension : Nat
  embeddingModel : String := ""
deriving Repr

/-- A document in an upsert request. -/
structure Doc where
  id : String
  text : Option String := none
  metadata : List (String × JsonValue) := []
  vector : Option (List Int) := none
deriving DecidableEq, Repr

/-- An upsert request: the documents and the optional namespace. -/
structure UpsertRequest where
  documents : List Doc
  ns : Option String := none
deriving Repr

/-- JSON serialisation of a scalar, as `JSON.stringify` renders it. -/
def jsonLitString : JsonValue → String
  | .str s => "\"" ++ s ++ "\""
  | .num n => toString n
  | .boolean b => if b then "true" else "false"

/-- `JSON.stringify(doc.metadata || \x7b\x7d)`. -/
def jsonStringify (md : List (String × JsonValue)) : String :=
  "\x7b" ++ String.intercalate ","
    (md.map (fun p => "\"" ++ p.1 ++ "\":" ++ jsonLitString p.2)) ++ "\x7d"

/-- The text `upsert` sends to the embedding service for one document:
`doc.text || JSON.stringify(doc.metadata || \x7b\x7d)` (an empty string is
falsy in JavaScript, so it also falls back to the stringified metadata). -/
def docEmbedText (d : Doc) : String :=
  match d.text with
  | some t => if t = "" then jsonStringify d.metadata else t
  | none => jsonStringify d.metadata

/-- The `textsToEmbed` list of `upsert`: one entry per document of the
request, whether or not the document carries an explicit vector. -/
def upsertTexts (docs : List Doc) : List String := docs.map docEmbedText

/-- `doc.vector || embeddings[i]`: the explicit vector when present, else
the generated embedding (arrays are truthy in JavaScript, so an explicit
vector always wins). -/
def resolvedVector (d : Doc) (emb : Option (List Int)) : Option (List Int) :=
  d.vector <|> emb

/-- The resolved vector of each document of a request, given the generated
embeddings (empty when no embedding service is configured). -/
def resolvedVectors (docs : List Doc) (embeds : List (List Int)) :
    List (Option (List Int)) :=
  docs.enum.map (fun p => resolvedVector p.2 embeds[p.1]?)

/-- The `ValidationError` message of `upsert`'s dimension check
(`vector?.length || 0` renders a missing vector as 0). -/
def vectorDimMsg (id : String) (dim got : Nat) : String :=
  "Vector dimension mismatch for document " ++ id ++ ". Expected " ++
    toString dim ++ ", got " ++ toString got

/-- One bind-parameter set of the `executeMany` MERGE statement. -/
structure UpsertBind where
  id : String
  embedding : List Int
  text : Option String
  metadata : List (String × JsonValue)
  ns : String
deriving DecidableEq, Repr

/-- `upsert`'s validation loop: walks the documents in order, resolving
each vector and checking its length against the configured dimension, and
fails with the first offending document's error before anything is
executed. -/
def buildBinds (cfg : CollectionConfig) (ns : String) :
    List (Doc × Option (List Int)) → Except OpError (List UpsertBind)
  | [] => .ok []
  | (d, ov) :: rest =>
      match ov with
      | none => .error (.validation (vectorDimMsg d.id cfg.dimension 0))
      | some v =>
          if v.length = cfg.dimension then
            (buildBinds cfg ns rest).map
              (fun bs => { id := d.id, embedding := v, text := d.text,
                           metadata := d.metadata, ns := ns } :: bs)
          else .error (.validation (vectorDimMsg d.id cfg.dimension v.length))

/-- SQL semantics of one row of the MERGE statement: the `ON` clause is
`t.id = s.id` — it matches on `id` alone, not on `(id, namespace)` — so a
matching row is updated in place (its `namespace` column overwritten) and
otherwise the row is inserted. -/
def mergeRow (store : List Row) (b : UpsertBind) : List Row :=
  if store.any (fun r => r.id == b.id) then
    store.map (fun r =>
      if r.id == b.id then
        { id := r.id, embedding := b.embedding, text := b.text,
          metadata := b.metadata, ns := b.ns }
      else r)
  else store ++ [{ id := b.id, embedding := b.embedding, text := b.text,
                   metadata := b.metadata, ns := b.ns }]

/-- `executeMany` of the MERGE statement: each bind set applied in order. -/
def applyMerge (store : List Row) (binds : List UpsertBind) : List Row :=
  binds.foldl mergeRow store

/-- The embedding step of `upsert`: when an embedding service and a model
are configured, every document's text goes through `embed` before the
validation loop runs; otherwise no embeddings are generated. -/
def upsertEmbedsResult (cfg : CollectionConfig) (svcConfigured : Bool)
    (f : String → String → List Int) (docs : List Doc) (s : EmbedState) (now : Nat) :
    List (List Int) × EmbedState :=
  if svcConfigured then embed f cfg.embeddingModel (upsertTexts docs) s now
  else ([], s)

/-- `Collection.upsert`. Returns the operation outcome, the resulting
store contents (unchanged when the operation fails before `executeMany`),
and the embedding-service state. When an embedding service is configured,
every document's text is embedded before validation, even for documents
that carry an explicit vector. -/
def upsert (cfg : CollectionConfig) (svcConfigured : Bool)
    (f : String → String → List Int) (store : List Row) (req : UpsertRequest)
    (s : EmbedState) (now : Nat) : Except OpError Unit × List Row × EmbedState :=
  let ns := req.ns.getD "default"
  if req.documents.isEmpty then (.error (.validation "No documents provided"), store, s)
  else
    let es := upsertEmbedsResult cfg svcConfigured f req.documents s now
    match buildBinds cfg ns (req.documents.zip (resolvedVectors req.documents es.1)) with
    | .error e => (.error e, store, es.2)
    | .ok binds => (.ok (), applyMerge store binds, es.2)

/-- The length of a resolved vector as the error message renders it:
`vector?.length || 0`. -/
def vecLen : Option (List Int) → Nat
  | none => 0
  | some w => w.length

/-- A search request (`QueryRequest` of `src/types.ts`). -/
structure QueryRequest where
  vector : Option (List Int) := none
  query : Option String := none
  topK : Option Int := none
  ns : Option String := none
  filter : Option FilterExpr := none
  includeMetadata : Bool := false
  includeValues : Bool := false

/-- One returned match: `score = 1 - distance`, text/metadata/vector
present according to the request's include flags. -/
structure QueryMatch where
  id : String
  score : Int
  text : Option String
  metadata : Option (List (String × JsonValue))
  vector : Option (List Int)
deriving DecidableEq, Repr

/-- A search response. -/
structure QueryResponse where
  «matches» : List QueryMatch
  ns : String
deriving DecidableEq, Repr

/-- `request.topK || 10`: a missing topK — and, 0 being falsy in
JavaScript, a topK of 0 — becomes the default 10. -/
def effectiveTopK : Option Int → Int
  | none => 10
  | some k => if k = 0 then 10 else k

/-- The filter clause is appended only when `buildFilterConditions`
returned a non-empty (truthy) string; an absent or empty clause constrains
nothing. -/
def rowMatchesFilter (fo : Option FilterExpr) (md : List (String × JsonValue)) : Bool :=
  match fo with
  | none => true
  | some flt => if buildFilterConditions flt = "" then true else evalCompiledFilter flt md

/-- Stable insertion of a scored row into a distance-sorted list (ties keep
earlier rows first). -/
def insertByDist (x : Row × Int) : List (Row × Int) → List (Row × Int)
  | [] => [x]
  | y :: ys => if y.2 ≤ x.2 then y :: insertByDist x ys else x :: y :: ys

/-- Stable sort of scored rows by ascending distance: the store's
`ORDER BY score ASC`. -/
def sortByDist : List (Row × Int) → List (Row × Int)
  | [] => []
  | x :: xs => insertByDist x (sortByDist xs)

/-- SQL semantics of the SELECT that `search` issues once the query vector
is resolved: rows of the namespace passing the filter clause, ordered by
ascending distance, limited by `FETCH FIRST :topK ROWS ONLY` (no rows for a
non-positive limit), then shaped into matches with `score = 1 - distance`. -/
def runSearchQuery (dist : List Int → List Int → Int) (store : List Row)
    (req : QueryRequest) (v : List Int) : QueryResponse :=
  let ns := req.ns.getD "default"
  let rows := store.filter (fun r => r.ns == ns && rowMatchesFilter req.filter r.metadata)
  let sorted := sortByDist (rows.map (fun r => (r, dist r.embedding v)))
  let top := sorted.take (effectiveTopK req.topK).toNat
  { «matches» := top.map (fun p =>
      { id := p.1.id
        score := 1 - p.2
        text := if req.includeMetadata then p.1.text else none
        metadata := if req.includeMetadata then some p.1.metadata else none
        vector := if req.includeValues then some p.1.embedding else none })
    ns := ns }

/-- `Collection.search`: an explicit request vector is used as is; without
one, a query text is embedded through `embedSingle` (a `SearchError` if no
embedding service is configured); with neither, a `ValidationError`. -/
def search (cfg : CollectionConfig) (dist : List Int → List Int → Int)
    (svcConfigured : Bool) (f : String → String → List Int) (store : List Row)
    (req : QueryRequest) (s : EmbedState) (now : Nat) :
    Except OpError QueryResponse × EmbedState :=
  match req.vector with
  | some v => (.ok (runSearchQuery dist store req v), s)
  | none =>
      match req.query with
      | some q =>
          if svcConfigured then
            let vs := embedSingle f cfg.embeddingModel q s now
            (.ok (runSearchQuery dist store req vs.1), vs.2)
          else (.error (.searchErr "Embedding service not configured for text queries"), s)
      | none => (.error (.validation "Either vector or query must be provided"), s)

/-! ### Claim theorems -/

/-- C1: REFUTED by the code (the spec itself flags this as a defect).
`buildFilterConditions` interpolates the user-supplied literal (`books`)
directly into the predicate string, single-quoted, and the bind-parameter
set that `search` passes to the store names only `queryVector`, `namespace`
and `topK` — no bound parameter ever carries a filter literal. -/
theorem c1_filter_literal_interpolated_not_bound :
    buildFilterConditions [("category", .ops [("$eq", .scalar (.str "books"))])] =
      "JSON_VALUE(metadata, " ++ squo ++ "$.category" ++ squo ++ ") = "
        ++ squo ++ "books" ++ squo
    ∧ searchBindNames = ["queryVector", "namespace", "topK"] :=
  ⟨rfl, rfl⟩

/-- C2: REFUTED by the code (the spec itself flags this as a defect).
The compiled predicate for `{price: {$gt: 100}}` is the string comparison
`JSON_VALUE(metadata, '$.price') > '100'`, so a document with numeric
`price` 99 is selected ('99' > '100' lexicographically) although the
typed reference evaluator rejects it (99 > 100 is false): the compiled
predicate and the reference evaluator select different document sets. -/
theorem c2_compiled_predicate_diverges_from_typed_reference :
    buildFilterConditions [("price", .ops [("$gt", .scalar (.num 100))])] =
      "JSON_VALUE(metadata, " ++ squo ++ "$.price" ++ squo ++ ") > "
        ++ squo ++ "100" ++ squo
    ∧ evalCompiledFilter [("price", .ops [("$gt", .scalar (.num 100))])]
        [("price", .num 99)] = true
    ∧ evalRefFilter [("price", .ops [("$gt", .scalar (.num 100))])]
        [("price", .num 99)] = false :=
  ⟨rfl, by decide, by decide⟩

/-- C3: REFUTED by the code. The MERGE's `ON` clause matches on `id`
alone, so upserting `{id: "x"}` into namespace `"b"` while a document with
id `"x"` exists in namespace `"a"` re-keys that document to namespace `"b"`
instead of leaving it present and unchanged: afterwards no document with id
`"x"` remains in namespace `"a"`. -/
theorem c3_merge_on_id_clobbers_other_namespace :
    (upsert ⟨2, ""⟩ false (fun _ _ => [])
        [{ id := "x", embedding := [1, 2], text := none, metadata := [], ns := "a" }]
        ⟨[{ id := "x", vector := some [1, 2] }], some "b"⟩ initialEmbedState 0).2.1 =
      [{ id := "x", embedding := [1, 2], text := none, metadata := [], ns := "b" }]
    ∧ ((upsert ⟨2, ""⟩ false (fun _ _ => [])
        [{ id := "x", embedding := [1, 2], text := none, metadata := [], ns := "a" }]
        ⟨[{ id := "x", vector := some [1, 2] }], some "b"⟩ initialEmbedState 0).2.1.filter
          (fun r => r.ns == "a")) = [] :=
  ⟨by decide, by decide⟩

/-- C6 counterexample: a collection with an embedding service configured,
upserting one document that carries both a text and an explicit vector of
the right dimension: the explicit vector `[5]` is what is stored, but one
provider batch call is still dispatched for the document's text (the claim
asserts no embedding call is made for such a document). -/
theorem c6_counterexample_provider_called_despite_explicit_vector :
    (upsert ⟨1, "m"⟩ true (fun _ _ => [7]) []
        ⟨[{ id := "d", text := some "t", vector := some [5] }], none⟩
        initialEmbedState 0).2 =
      ([{ id := "d", embedding := [5], text := some "t", metadata := [], ns := "default" }],
        ⟨[⟨"m:t", [7], 0⟩], 1⟩) := by
  decide

/-- C7 counterexample: a search over 11 documents with `topK: 0` raises no
`ValidationError`; `request.topK || 10` silently replaces 0 by the default
10 and the search returns 10 matches — more than the requested topK. -/
theorem c7_counterexample_topk_zero_returns_default_ten :
    ((search ⟨1, ""⟩ (fun _ _ => 0) false (fun _ _ => [])
        ((List.range 11).map (fun i =>
          { id := "d" ++ toString i, embedding := [0], text := none,
            metadata := [], ns := "default" }))
        { vector := some [0], topK := some 0 } initialEmbedState 0).1.toOption.map
      (fun r => r.«matches».length)) = some 10 := by
  decide

/-- C8: REFUTED by the code (the spec itself flags the missing `default`
branch). The `switch` of `buildFilterConditions` has no default case, so a
filter using the unsupported operator `$regex` compiles to the empty
condition string — no `ValidationError` is raised (the function cannot
fail) and, the empty string being falsy, `search` appends no predicate at
all: the unsupported operator is silently dropped and every row matches. -/
theorem c8_unsupported_operator_silently_dropped :
    buildFilterConditions [("tag", .ops [("$regex", .scalar (.str "abc"))])] = ""
    ∧ rowMatchesFilter (some [("tag", .ops [("$regex", .scalar (.str "abc"))])]) [] = true :=
  ⟨rfl, by decide⟩

lemma length_assemble (ws : List (Nat × List Int)) :
    ∀ init, (assemble init ws).length = init.length := by
  induction ws with
  | nil => intro init; rfl
  | cons w ws ih =>
      intro init
      show (assemble (init.set w.1 (some w.2)) ws).length = init.length
      rw [ih, List.length_set]

lemma assemble_getElem?_not_mem (ws : List (Nat × List Int)) :
    ∀ (init : List (Option (List Int))) (i : Nat), i ∉ ws.map Prod.fst →
      (assemble init ws)[i]? = init[i]? := by
  induction ws with
  | nil => intro init i _; rfl
  | cons w ws ih =>
      intro init i hi
      rw [List.map_cons, List.mem_cons] at hi
      push_neg at hi
      show (assemble (init.set w.1 (some w.2)) ws)[i]? = init[i]?
      rw [ih _ _ hi.2, List.getElem?_set_ne (fun h => hi.1 h.symm)]

lemma assemble_getElem?_mem (ws : List (Nat × List Int)) :
    ∀ (init : List (Option (List Int))) (i : Nat) (v : List Int),
      (i, v) ∈ ws → (ws.map Prod.fst).Nodup → i < init.length →
      (assemble init ws)[i]? = some (some v) := by
  induction ws with
  | nil => intro _ _ _ h; exact absurd h (List.not_mem_nil _)
  | cons w ws ih =>
      intro init i v hm hnd hlen
      rw [List.map_cons, List.nodup_cons] at hnd
      rcases List.mem_cons.mp hm with heq | hrest
      · subst heq
        show (assemble (init.set i (some v)) ws)[i]? = some (some v)
        rw [assemble_getElem?_not_mem ws _ _ hnd.1,
          List.getElem?_set_self hlen]
      · have hne : w.1 ≠ i := by
          intro h
          exact hnd.1 (h ▸ (List.mem_map.mpr ⟨(i, v), hrest, rfl⟩))
        show (assemble (init.set w.1 (some w.2)) ws)[i]? = some (some v)
        exact ih _ _ _ hrest hnd.2 (by rw [List.length_set]; exact hlen)

lemma flatten_createBatchesAux (n : Nat) :
    ∀ (fuel : Nat) (l : List α), (createBatchesAux n fuel l).flatten = l := by
  intro fuel
  induction fuel with
  | zero =>
      intro l
      cases l with
      | nil => rfl
      | cons x xs => simp [createBatchesAux]
  | succ fuel ih =>
      intro l
      cases l with
      | nil => rfl
      | cons x xs =>
          show ((x :: xs.take (n - 1)) :: createBatchesAux n fuel (xs.drop (n - 1))).flatten = x :: xs
          rw [List.flatten_cons, ih]
          simp [List.take_append_drop]

lemma flatten_createBatches (n : Nat) (l : List α) :
    (createBatches n l).flatten = l :=
  flatten_createBatchesAux n l.length l

lemma missResults_map_fst (f : String → String → List Int) (cache : List CacheEntry)
    (model : String) (texts : List String) (now : Nat) :
    (missResults f cache model texts now).map Prod.fst =
      (missList cache model texts now).map Prod.fst := by
  simp [missResults, List.map_map, Function.comp]

lemma nodup_missList_fst (cache : List CacheEntry) (model : String)
    (texts : List String) (now : Nat) :
    ((missList cache model texts now).map Prod.fst).Nodup := by
  have hsub : (missList cache model texts now).map Prod.fst |>.Sublist
      (texts.enum.map Prod.fst) :=
    List.Sublist.map Prod.fst (List.filter_sublist _)
  have : (texts.enum.map Prod.fst).Nodup := by
    rw [List.enum_map_fst]; exact List.nodup_range _
  exact hsub.nodup this

lemma mem_missList {cache : List CacheEntry} {model : String} {texts : List String}
    {now : Nat} {i : Nat} {t : String} :
    (i, t) ∈ missList cache model texts now ↔
      texts[i]? = some t ∧ (cacheGet cache (cacheKey model t) now) = none := by
  simp [missList, List.mem_filter, List.mem_enum_iff_getElem?, Option.isNone_iff_eq_none]

lemma mem_missResults {f : String → String → List Int} {cache : List CacheEntry}
    {model : String} {texts : List String} {now : Nat} {i : Nat} {v : List Int} :
    (i, v) ∈ missResults f cache model texts now ↔
      ∃ t, texts[i]? = some t ∧ cacheGet cache (cacheKey model t) now = none ∧
        v = f model t := by
  constructor
  · intro h
    rcases List.mem_map.mp h with ⟨p, hp, he⟩
    rcases Prod.mk.injEq .. ▸ he with ⟨h1, h2⟩
    cases he
    exact ⟨p.2, (mem_missList.mp hp).1, (mem_missList.mp hp).2, rfl⟩
  · intro ⟨t, h1, h2, h3⟩
    subst h3
    exact List.mem_map.mpr ⟨(i, t), mem_missList.mpr ⟨h1, h2⟩, rfl⟩

lemma initSlots_getElem? (cache : List CacheEntry) (model : String)
    (texts : List String) (now : Nat) (i : Nat) :
    (initSlots cache model texts now)[i]? =
      texts[i]?.map (fun t => cacheGet cache (cacheKey model t) now) := by
  simp [initSlots, List.getElem?_map]

lemma embedOut_spec (f : String → String → List Int) (cache : List CacheEntry)
    (model : String) (texts : List String) (now : Nat)
    (l : List (Nat × List Int))
    (hl : l.Perm (missResults f cache model texts now)) :
    (embedOut cache model texts now l).length = texts.length ∧
    ∀ i (h : i < texts.length),
      (embedOut cache model texts now l).getD i [] =
        (cacheGet cache (cacheKey model texts[i]) now).getD (f model texts[i]) := by
  have hnd : (l.map Prod.fst).Nodup := by
    rw [(hl.map Prod.fst).nodup_iff, missResults_map_fst]
    exact nodup_missList_fst cache model texts now
  have hislen : (initSlots cache model texts now).length = texts.length := by
    simp [initSlots]
  have hlen : (embedOut cache model texts now l).length = texts.length := by
    rw [embedOut, List.length_map, length_assemble, hislen]
  refine ⟨hlen, ?_⟩
  intro i h
  rw [List.getD_eq_getElem?_getD, embedOut, List.getElem?_map]
  cases hm : cacheGet cache (cacheKey model texts[i]) now with
  | some v =>
      have hni : i ∉ l.map Prod.fst := by
        intro hin
        rcases List.mem_map.mp hin with ⟨p, hp, hpe⟩
        have hpm : (i, p.2) ∈ missResults f cache model texts now := by
          rw [← hpe]
          exact hl.mem_iff.mp hp
        rcases mem_missResults.mp hpm with ⟨t, ht1, ht2, _⟩
        rw [List.getElem?_eq_getElem h, Option.some.injEq] at ht1
        rw [← ht1, hm] at ht2
        exact Option.noConfusion ht2
      rw [assemble_getElem?_not_mem _ _ _ hni, initSlots_getElem?,
        List.getElem?_eq_getElem h]
      simp [hm]
  | none =>
      have hmem : (i, f model texts[i]) ∈ l := by
        rw [hl.mem_iff]
        exact mem_missResults.mpr ⟨texts[i], List.getElem?_eq_getElem h, hm, rfl⟩
      rw [assemble_getElem?_mem _ _ _ _ hmem hnd (by rw [hislen]; exact h)]
      simp

lemma embed_fst_eq_embedOut (f : String → String → List Int) (model : String)
    (texts : List String) (s : EmbedState) (now : Nat) :
    (embed f model texts s now).1 =
      embedOut s.cache model texts now (missResults f s.cache model texts now) := by
  show embedOut s.cache model texts now _ = _
  congr 1
  have h1 : ((createBatches 100 (missList s.cache model texts now)).map
      (fun b => b.map (fun p => (p.1, f model p.2)))).flatten =
      ((createBatches 100 (missList s.cache model texts now)).flatten).map
        (fun p => (p.1, f model p.2)) :=
    (List.map_flatten _ _).symm
  rw [h1, flatten_createBatches]
  rfl

/-- C4: the `results` array of `embed` has exactly one slot per input text;
slot `i` holds the cached vector for `texts[i]` when the cache hit, and the
provider's embedding of `texts[i]` otherwise; and assembling the batch
write-backs in ANY order (any permutation `l` of the dispatched batches'
tagged results) produces exactly the same output list. -/
theorem c4_embed_order_preserving (f : String → String → List Int) (model : String)
    (texts : List String) (s : EmbedState) (now : Nat) (l : List (Nat × List Int))
    (hl : l.Perm (missResults f s.cache model texts now)) :
    embedOut s.cache model texts now l = (embed f model texts s now).1 ∧
    (embed f model texts s now).1.length = texts.length ∧
    ∀ i, i < texts.length →
      (embed f model texts s now).1.getD i [] =
        (cacheGet s.cache (cacheKey model (texts.getD i "")) now).getD
          (f model (texts.getD i "")) := by
  have hspec := embedOut_spec f s.cache model texts now l hl
  have hspec' := embedOut_spec f s.cache model texts now
    (missResults f s.cache model texts now) (List.Perm.refl _)
  have hembed := embed_fst_eq_embedOut f model texts s now
  have hgd : ∀ (xs : List (List Int)) (n : Nat) (hn : n < xs.length), xs.getD n [] = xs[n] := by
    intro xs n hn
    rw [List.getD_eq_getElem?_getD, List.getElem?_eq_getElem hn]
    rfl
  have htexts : ∀ (i : Nat) (hi : i < texts.length), texts.getD i "" = texts[i] := by
    intro i hi
    rw [List.getD_eq_getElem?_getD, List.getElem?_eq_getElem hi]
    rfl
  refine ⟨?_, ?_, ?_⟩
  · rw [hembed]
    apply List.ext_getElem (by rw [hspec.1, hspec'.1])
    intro n h1 h2
    rw [← hgd _ _ h1, ← hgd _ _ h2, hspec.2 n (by rw [← hspec.1]; exact h1),
      hspec'.2 n (by rw [← hspec'.1]; exact h2)]
  · rw [hembed]; exact hspec'.1
  · intro i hi
    rw [hembed, htexts i hi, hspec'.2 i hi]

/-- C5: starting from a fresh `EmbeddingService`, two successive
`embed(["hello"], "model-a")` calls (the second within the cache TTL of the
first) dispatch exactly one provider call in total, and the second call
returns exactly the vector of the first. -/
theorem c5_embed_cache_idempotent (f : String → String → List Int) (now₁ now₂ : Nat)
    (h : now₂ ≤ now₁ + cacheTtl) :
    (embed f "model-a" ["hello"]
      (embed f "model-a" ["hello"] initialEmbedState now₁).2 now₂).2.providerCalls = 1 ∧
    (embed f "model-a" ["hello"]
      (embed f "model-a" ["hello"] initialEmbedState now₁).2 now₂).1 =
      (embed f "model-a" ["hello"] initialEmbedState now₁).1 := by
  have h1 : embed f "model-a" ["hello"] initialEmbedState now₁ =
      ([f "model-a" "hello"],
        ⟨[⟨"model-a:hello", f "model-a" "hello", now₁⟩], 1⟩) := rfl
  have hv : cacheGet [⟨"model-a:hello", f "model-a" "hello", now₁⟩]
      (cacheKey "model-a" "hello") now₂ = some (f "model-a" "hello") := by
    show (if now₂ ≤ now₁ + cacheTtl then some (f "model-a" "hello") else none) =
      some (f "model-a" "hello")
    rw [if_pos h]
  have h2 : embed f "model-a" ["hello"]
      (⟨[⟨"model-a:hello", f "model-a" "hello", now₁⟩], 1⟩ : EmbedState) now₂ =
      ([f "model-a" "hello"],
        ⟨[⟨"model-a:hello", f "model-a" "hello", now₁⟩], 1⟩) := by
    have hml : missList [⟨"model-a:hello", f "model-a" "hello", now₁⟩]
        "model-a" ["hello"] now₂ = [] := by
      simp [missList, cacheKey] at hv ⊢
      simp [hv]
    rw [embed]
    simp only [hml]
    have hio : initSlots [⟨"model-a:hello", f "model-a" "hello", now₁⟩]
        "model-a" ["hello"] now₂ = [some (f "model-a" "hello")] := by
      simp [initSlots, cacheKey] at hv ⊢
      simp [hv]
    simp [embedOut, assemble, createBatches, createBatchesAux, hio]
  rw [h1, h2]
  exact ⟨rfl, rfl⟩

lemma buildBinds_cons_none (cfg : CollectionConfig) (ns : String) (d : Doc)
    (rest : List (Doc × Option (List Int))) :
    buildBinds cfg ns ((d, none) :: rest) =
      .error (.validation (vectorDimMsg d.id cfg.dimension 0)) := rfl

lemma buildBinds_cons_some (cfg : CollectionConfig) (ns : String) (d : Doc)
    (v : List Int) (rest : List (Doc × Option (List Int))) :
    buildBinds cfg ns ((d, some v) :: rest) =
      if v.length = cfg.dimension then
        (buildBinds cfg ns rest).map
          (fun bs => { id := d.id, embedding := v, text := d.text,
                       metadata := d.metadata, ns := ns } :: bs)
      else .error (.validation (vectorDimMsg d.id cfg.dimension v.length)) := rfl

lemma buildBinds_error (cfg : CollectionConfig) (ns : String) :
    ∀ (pairs : List (Doc × Option (List Int))),
      (∃ p ∈ pairs, p.2.isSome = true ∧ vecLen p.2 ≠ cfg.dimension) →
      ∃ q ∈ pairs, (q.2 = none ∨ vecLen q.2 ≠ cfg.dimension) ∧
        buildBinds cfg ns pairs =
          .error (.validation (vectorDimMsg q.1.id cfg.dimension (vecLen q.2))) := by
  intro pairs
  induction pairs with
  | nil => rintro ⟨p, hp, _⟩; exact absurd hp (List.not_mem_nil _)
  | cons hd rest ih =>
      rintro ⟨p, hp, hps, hpl⟩
      obtain ⟨d, ov⟩ := hd
      cases ov with
      | none =>
          exact ⟨(d, none), List.mem_cons_self _ _, Or.inl rfl,
            buildBinds_cons_none cfg ns d rest⟩
      | some v =>
          by_cases hvd : v.length = cfg.dimension
          · have hrest : ∃ p ∈ rest, p.2.isSome = true ∧ vecLen p.2 ≠ cfg.dimension := by
              rcases List.mem_cons.mp hp with heq | hmem
              · exfalso
                subst heq
                exact hpl (by simpa [vecLen] using hvd)
              · exact ⟨p, hmem, hps, hpl⟩
            obtain ⟨q, hq, hqb, hqe⟩ := ih hrest
            refine ⟨q, List.mem_cons_of_mem _ hq, hqb, ?_⟩
            rw [buildBinds_cons_some, if_pos hvd, hqe]
            rfl
          · refine ⟨(d, some v), List.mem_cons_self _ _,
              Or.inr (by simpa [vecLen] using hvd), ?_⟩
            rw [buildBinds_cons_some, if_neg hvd]
            rfl

/-- C9: `upsert` is fail-fast. If any document's resolved vector has the
wrong length, the whole call returns the `ValidationError` of the first
document failing validation — identifying that document's id and the
length it saw — and no MERGE is executed: the store is returned unchanged,
including for documents earlier in the batch that validated. -/
theorem c9_upsert_fail_fast (cfg : CollectionConfig) (svcConfigured : Bool)
    (f : String → String → List Int) (store : List Row) (req : UpsertRequest)
    (s : EmbedState) (now : Nat)
    (hbad : ∃ p ∈ req.documents.zip (resolvedVectors req.documents
        (upsertEmbedsResult cfg svcConfigured f req.documents s now).1),
      p.2.isSome = true ∧ vecLen p.2 ≠ cfg.dimension) :
    ∃ q ∈ req.documents.zip (resolvedVectors req.documents
        (upsertEmbedsResult cfg svcConfigured f req.documents s now).1),
      (q.2 = none ∨ vecLen q.2 ≠ cfg.dimension) ∧
      (upsert cfg svcConfigured f store req s now).1 =
        .error (.validation (vectorDimMsg q.1.id cfg.dimension (vecLen q.2))) ∧
      (upsert cfg svcConfigured f store req s now).2.1 = store := by
  obtain ⟨q, hq, hqb, hqe⟩ := buildBinds_error cfg (req.ns.getD "default") _ hbad
  have hne : req.documents.isEmpty = false := by
    rcases hbad with ⟨p, hp, _⟩
    rcases List.of_mem_zip hp with ⟨hd, _⟩
    cases hdocs : req.documents with
    | nil => rw [hdocs] at hd; exact absurd hd (List.not_mem_nil _)
    | cons a l => rfl
  refine ⟨q, hq, hqb, ?_, ?_⟩
  · rw [upsert]
    simp only [hne, Bool.false_eq_true, if_false, hqe]
  · rw [upsert]
    simp only [hne, Bool.false_eq_true, if_false, hqe]

/-- C6 amended: at the vector-resolution site `doc.vector || embeddings[i]`
an explicit vector always wins over any generated embedding, and — for a
single-document request with an explicit vector of the configured
dimension — the stored row carries exactly that vector; but when an
embedding service is configured, `upsert` still runs the whole batch's
texts through the embedding pipeline before validating. -/
theorem c6_amended_explicit_vector_wins (cfg : CollectionConfig)
    (f : String → String → List Int) (d : Doc) (v : List Int)
    (nso : Option String) (s : EmbedState) (now : Nat)
    (hv : d.vector = some v) (hlen : v.length = cfg.dimension) :
    (∀ (emb : Option (List Int)), resolvedVector d emb = some v) ∧
    (upsert cfg true f [] ⟨[d], nso⟩ s now).2.1 =
      [{ id := d.id, embedding := v, text := d.text, metadata := d.metadata,
         ns := nso.getD "default" }] ∧
    (upsert cfg true f [] ⟨[d], nso⟩ s now).2.2 =
      (embed f cfg.embeddingModel (upsertTexts [d]) s now).2 := by
  have hres : ∀ (emb : Option (List Int)), resolvedVector d emb = some v := by
    intro emb
    rw [resolvedVector, hv]
    rfl
  have hpairs : [d].zip (resolvedVectors [d]
      (upsertEmbedsResult cfg true f [d] s now).1) = [(d, some v)] := by
    simp [resolvedVectors, List.enum, hres]
  have hbb : buildBinds cfg (nso.getD "default") [(d, some v)] =
      .ok [{ id := d.id, embedding := v, text := d.text, metadata := d.metadata,
             ns := nso.getD "default" }] := by
    rw [buildBinds_cons_some, if_pos hlen]
    rfl
  refine ⟨hres, ?_, ?_⟩
  · rw [upsert]
    simp only [List.isEmpty_cons, if_false, hpairs, hbb]
    rfl
  · rw [upsert]
    simp only [List.isEmpty_cons, if_false, hpairs, hbb]
    rfl

/-- C7 amended: with an explicit query vector the search succeeds and
returns the rows of `runSearchQuery`; the number of matches is bounded by
the requested topK when that is positive, while a topK of 0 — like an
absent topK — is silently replaced by the default 10 (the match count is
then bounded by 10 and no `ValidationError` is raised). -/
theorem c7_amended_topk_bound (cfg : CollectionConfig)
    (dist : List Int → List Int → Int) (svcConfigured : Bool)
    (f : String → String → List Int) (store : List Row) (req : QueryRequest)
    (s : EmbedState) (now : Nat) (v : List Int) (k : Int)
    (hv : req.vector = some v) :
    (search cfg dist svcConfigured f store req s now =
      (.ok (runSearchQuery dist store req v), s)) ∧
    (req.topK = some k → 0 < k →
      (runSearchQuery dist store req v).«matches».length ≤ k.toNat) ∧
    ((req.topK = none ∨ req.topK = some 0) →
      (runSearchQuery dist store req v).«matches».length ≤ 10) := by
  have hlen : ∀ (n : Nat) (l : List (Row × Int)) (g : Row × Int → QueryMatch),
      ((l.take n).map g).length ≤ n := by
    intro n l g
    rw [List.length_map, List.length_take]
    exact min_le_left _ _
  refine ⟨?_, ?_, ?_⟩
  · rw [search, hv]
  · intro hk hk0
    rw [runSearchQuery]
    simp only [hk, effectiveTopK]
    have he : (if k = 0 then (10 : Int) else k) = k := if_neg (by omega)
    rw [he]
    exact hlen _ _ _
  · rintro (hk | hk) <;>
      · rw [runSearchQuery]
        simp only [hk, effectiveTopK]
        exact hlen _ _ _

/-- C10: when the request carries an explicit vector, `search` uses it as
the query vector: it succeeds with the store query on that vector, leaves
the embedding-service state untouched (no provider call), and the request's
query text is ignored — replacing it by anything changes nothing. -/
theorem c10_search_explicit_vector_skips_embedding (cfg : CollectionConfig)
    (dist : List Int → List Int → Int) (svcConfigured : Bool)
    (f : String → String → List Int) (store : List Row) (req : QueryRequest)
    (s : EmbedState) (now : Nat) (v : List Int) (q : Option String)
    (hv : req.vector = some v) :
    search cfg dist svcConfigured f store req s now =
      (.ok (runSearchQuery dist store req v), s) ∧
    search cfg dist svcConfigured f store { req with query := q } s now =
      search cfg dist svcConfigured f store req s now := by
  obtain ⟨vec, q0, tk, nsx, fl, im, iv⟩ := req
  have hv' : vec = some v := hv
  subst hv'
  exact ⟨rfl, rfl⟩

/-- Witness for C4 at a concrete input: two uncached texts whose batch
results are written back in reversed order still land in input order. -/
theorem c4_embed_order_preserving_witness :
    embedOut initialEmbedState.cache "m" ["a", "bb"] 0 [(1, [2]), (0, [1])] =
      (embed (fun _ t => [(t.length : Int)]) "m" ["a", "bb"] initialEmbedState 0).1 ∧
    (embed (fun _ t => [(t.length : Int)]) "m" ["a", "bb"] initialEmbedState 0).1.length =
      (["a", "bb"] : List String).length ∧
    (∀ i, i < (["a", "bb"] : List String).length →
      (embed (fun _ t => [(t.length : Int)]) "m" ["a", "bb"] initialEmbedState 0).1.getD i [] =
        (cacheGet initialEmbedState.cache
            (cacheKey "m" ((["a", "bb"] : List String).getD i "")) 0).getD
          ((fun (_ t : String) => [(t.length : Int)]) "m"
            ((["a", "bb"] : List String).getD i ""))) :=
  c4_embed_order_preserving (fun _ t => [(t.length : Int)]) "m" ["a", "bb"]
    initialEmbedState 0 [(1, [2]), (0, [1])] (by decide)

/-- Witness for C5 at a concrete input: both calls at time 0. -/
theorem c5_embed_cache_idempotent_witness :
    (embed (fun _ _ => [3]) "model-a" ["hello"]
      (embed (fun _ _ => [3]) "model-a" ["hello"] initialEmbedState 0).2 0).2.providerCalls = 1 ∧
    (embed (fun _ _ => [3]) "model-a" ["hello"]
      (embed (fun _ _ => [3]) "model-a" ["hello"] initialEmbedState 0).2 0).1 =
      (embed (fun _ _ => [3]) "model-a" ["hello"] initialEmbedState 0).1 :=
  c5_embed_cache_idempotent (fun _ _ => [3]) 0 0 (by decide)

/-- Witness for the amended C6 at a concrete input. -/
theorem c6_amended_explicit_vector_wins_witness :
    (∀ (emb : Option (List Int)),
      resolvedVector { id := "d", text := some "t", vector := some [5] } emb = some [5]) ∧
    (upsert ⟨1, "m"⟩ true (fun _ _ => [7]) []
        ⟨[{ id := "d", text := some "t", vector := some [5] }], none⟩
        initialEmbedState 0).2.1 =
      [{ id := "d", embedding := [5], text := some "t", metadata := [], ns := "default" }] ∧
    (upsert ⟨1, "m"⟩ true (fun _ _ => [7]) []
        ⟨[{ id := "d", text := some "t", vector := some [5] }], none⟩
        initialEmbedState 0).2.2 =
      (embed (fun _ _ => [7]) "m"
        (upsertTexts [{ id := "d", text := some "t", vector := some [5] }])
        initialEmbedState 0).2 :=
  c6_amended_explicit_vector_wins ⟨1, "m"⟩ (fun _ _ => [7])
    { id := "d", text := some "t", vector := some [5] } [5] none initialEmbedState 0
    rfl (by decide)

/-- Witness for the amended C7 at a concrete input: topK 3. -/
theorem c7_amended_topk_bound_witness :
    (search ⟨1, ""⟩ (fun _ _ => 0) false (fun _ _ => []) []
        { vector := some [1], topK := some 3 } initialEmbedState 0 =
      (.ok (runSearchQuery (fun _ _ => 0) [] { vector := some [1], topK := some 3 } [1]),
        initialEmbedState)) ∧
    (({ vector := some [1], topK := some 3 } : QueryRequest).topK = some 3 → 0 < (3 : Int) →
      (runSearchQuery (fun _ _ => 0) [] { vector := some [1], topK := some 3 } [1]).«matches».length ≤
        (3 : Int).toNat) ∧
    ((({ vector := some [1], topK := some 3 } : QueryRequest).topK = none ∨
        ({ vector := some [1], topK := some 3 } : QueryRequest).topK = some 0) →
      (runSearchQuery (fun _ _ => 0) [] { vector := some [1], topK := some 3 } [1]).«matches».length ≤ 10) :=
  c7_amended_topk_bound ⟨1, ""⟩ (fun _ _ => 0) false (fun _ _ => []) []
    { vector := some [1], topK := some 3 } initialEmbedState 0 [1] 3 rfl

/-- Witness for C9 at a concrete input: a two-document batch whose second
document's vector has the wrong length. -/
theorem c9_upsert_fail_fast_witness :
    ∃ q ∈ ([{ id := "a", vector := some [1, 2] },
            { id := "b", vector := some [9] }] : List Doc).zip
        (resolvedVectors [{ id := "a", vector := some [1, 2] },
            { id := "b", vector := some [9] }]
          (upsertEmbedsResult ⟨2, ""⟩ false (fun _ _ => [])
            [{ id := "a", vector := some [1, 2] },
             { id := "b", vector := some [9] }] initialEmbedState 0).1),
      (q.2 = none ∨ vecLen q.2 ≠ (⟨2, ""⟩ : CollectionConfig).dimension) ∧
      (upsert ⟨2, ""⟩ false (fun _ _ => [])
          [{ id := "x", embedding := [1, 2], text := none, metadata := [], ns := "default" }]
          ⟨[{ id := "a", vector := some [1, 2] }, { id := "b", vector := some [9] }], none⟩
          initialEmbedState 0).1 =
        .error (.validation (vectorDimMsg q.1.id 2 (vecLen q.2))) ∧
      (upsert ⟨2, ""⟩ false (fun _ _ => [])
          [{ id := "x", embedding := [1, 2], text := none, metadata := [], ns := "default" }]
          ⟨[{ id := "a", vector := some [1, 2] }, { id := "b", vector := some [9] }], none⟩
          initialEmbedState 0).2.1 =
        [{ id := "x", embedding := [1, 2], text := none, metadata := [], ns := "default" }] :=
  c9_upsert_fail_fast ⟨2, ""⟩ false (fun _ _ => [])
    [{ id := "x", embedding := [1, 2], text := none, metadata := [], ns := "default" }]
    ⟨[{ id := "a", vector := some [1, 2] }, { id := "b", vector := some [9] }], none⟩
    initialEmbedState 0 (by decide)

/-- Witness for C10 at a concrete input. -/
theorem c10_search_explicit_vector_skips_embedding_witness :
    search ⟨1, "m"⟩ (fun _ _ => 0) true (fun _ _ => [9])
        [{ id := "r", embedding := [1], text := none, metadata := [], ns := "default" }]
        { vector := some [1], query := some "ignored" } initialEmbedState 0 =
      (.ok (runSearchQuery (fun _ _ => 0)
          [{ id := "r", embedding := [1], text := none, metadata := [], ns := "default" }]
          { vector := some [1], query := some "ignored" } [1]),
        initialEmbedState) ∧
    search ⟨1, "m"⟩ (fun _ _ => 0) true (fun _ _ => [9])
        [{ id := "r", embedding := [1], text := none, metadata := [], ns := "default" }]
        { ({ vector := some [1], query := some "ignored" } : QueryRequest) with query := none }
        initialEmbedState 0 =
      search ⟨1, "m"⟩ (fun _ _ => 0) true (fun _ _ => [9])
        [{ id := "r", embedding := [1], text := none, metadata := [], ns := "default" }]
        { vector := some [1], query := some "ignored" } initialEmbedState 0 :=
  c10_search_explicit_vector_skips_embedding ⟨1, "m"⟩ (fun _ _ => 0) true (fun _ _ => [9])
    [{ id := "r", embedding := [1], text := none, metadata := [], ns := "default" }]
    { vector := some [1], query := some "ignored" } initialEmbedState 0 [1] none rfl
